import Mathlib

/-!
Shallow embedding of the DevDonalds cookbook service
(`backend/py_template/devdonalds.py`): the entry validator
(`isRecipeValid`, `isIngredientValid`, `create_entry`), the registry
(`cookbook`, a dict from entry name to the raw admitted record), and the
recursive recipe resolver (`handleItemInfo`, `summary`).

Raw request records are modelled by `JVal`, a Python-value type covering
the shapes the endpoints probe: `None`, booleans, integers, strings,
lists and dicts.  Python truthiness and the `type(x) != T` checks of the
source are modelled explicitly.  Field access comes in the two flavours
the source uses: `pyGet` models `d.get(k)` (returns `None` when the key
is missing, crashes on a non-dict) and `getItem` models `d[k]` (crashes
when the key is missing or the receiver is not a dict); a crash
(an uncaught `KeyError`/`AttributeError`/`TypeError`) is modelled as
`Option.none` respectively an explicit error value.

Deliberate modelling notes, each marked at its use site:
* Python's unbounded recursion in `handleItemInfo` is modelled with a
  fuel parameter; running out of fuel is the distinguished outcome
  `ResolveErr.fuelOut` (the Python analogue is a `RecursionError`).
* Arithmetic on non-integer operands (for example a string `cookTime`
  multiplied by a quantity, which Python would turn into string
  repetition) is modelled as a crash (`ResolveErr.typeError`); admitted
  entries always carry integers in those positions, so the difference is
  confined to registries no admission sequence can produce.
-/

inductive JVal where
  | jnull : JVal
  | jbool : Bool → JVal
  | jint : Int → JVal
  | jstr : String → JVal
  | jlist : List JVal → JVal
  | jobj : List (String × JVal) → JVal

/-- A parsed JSON object body, as the Flask handlers receive it. -/
abbrev Fields := List (String × JVal)

/-- The cookbook: Python dict from entry name to the raw admitted record.
Modelled as an insertion-ordered association list; `create_entry` only ever
inserts fresh keys, so lookup by first match agrees with the dict. -/
abbrev Cookbook := List (String × Fields)

namespace JVal

/-- Python truthiness: `None`, `False`, `0`, `""`, `[]`, `{}` are falsy. -/
def truthy : JVal → Bool
  | .jnull => false
  | .jbool b => b
  | .jint n => !(n == 0)
  | .jstr s => !(s == "")
  | .jlist xs => !xs.isEmpty
  | .jobj fs => !fs.isEmpty

/-- Python `type(v) == str`. -/
def isStr : JVal → Bool
  | .jstr _ => true
  | _ => false

/-- Python `type(v) == int` (`True : bool` is not `int` under `type`). -/
def isInt : JVal → Bool
  | .jint _ => true
  | _ => false

/-- Python `type(v) == list`. -/
def isList : JVal → Bool
  | .jlist _ => true
  | _ => false

def isObj : JVal → Bool
  | .jobj _ => true
  | _ => false

/-- The string payload (meaningful once `isStr` holds). -/
def asStr : JVal → String
  | .jstr s => s
  | _ => ""

/-- The integer payload (meaningful once `isInt` holds). -/
def asInt : JVal → Int
  | .jint n => n
  | _ => 0

/-- The list payload (meaningful once `isList` holds). -/
def asList : JVal → List JVal
  | .jlist xs => xs
  | _ => []

/-- Python `v == s` for a string literal `s`. -/
def isStrEq (v : JVal) (s : String) : Bool :=
  match v with
  | .jstr t => t == s
  | _ => false

/-- Python `d.get(k)`: `None` when the key is missing; `none` here means the
receiver is not a dict, so the attribute access itself crashes. -/
def pyGet : JVal → String → Option JVal
  | .jobj fs, k =>
    some (match fs.lookup k with
          | some v => v
          | none => .jnull)
  | _, _ => none

/-- Python `d[k]`: `none` models a crash (missing key or non-dict receiver). -/
def getItem : JVal → String → Option JVal
  | .jobj fs, k => fs.lookup k
  | _, _ => none

end JVal

/-- Python `entry.get(k)` on a request body already known to be a dict. -/
def getField (fs : Fields) (k : String) : JVal :=
  match fs.lookup k with
  | some v => v
  | none => .jnull

/-- The loop of `isRecipeValid` over `requiredItems`, threading the `nameSet`
of already-seen item names.  `none` models a crash inside the loop (an element
that is not a dict has no `.get`). -/
def checkItems : List JVal → List String → Option Bool
  | [], _ => some true
  | item :: rest, nameSet =>
    match item.pyGet "name" with
    | none => none
    | some nameV =>
      if !nameV.truthy || !nameV.isStr then some false
      else if nameSet.contains nameV.asStr then some false
      else
        match item.pyGet "quantity" with
        | none => none
        | some qV =>
          if !qV.truthy || !qV.isInt then some false
          else if qV.asInt ≤ 0 then some false
          else checkItems rest (nameV.asStr :: nameSet)

/-- The validator `isRecipeValid(entry)`; `none` models a crash while iterating. -/
def isRecipeValid (entry : Fields) : Option Bool :=
  let requiredItems := getField entry "requiredItems"
  if !requiredItems.truthy || !requiredItems.isList then some false
  else checkItems requiredItems.asList []

/-- The validator `isIngredientValid(entry)`. -/
def isIngredientValid (entry : Fields) : Bool :=
  let cookTime := getField entry "cookTime"
  if !cookTime.truthy || !cookTime.isInt then false
  else if cookTime.asInt < 0 then false
  else true

/-- The distinct outcomes of `POST /entry`, one per `return` of
`create_entry` (plus `serverError` for an uncaught exception). -/
inductive AdmissionResult where
  | success
  | nameNotFound
  | nameNotStr
  | duplicateName
  | typeNotFound
  | typeNotStr
  | invalidRecipe
  | invalidIngredient
  | invalidType
  | serverError
deriving DecidableEq, Repr

/-- The admission endpoint `create_entry`.  Returns the response outcome and
the cookbook after the call. -/
def create_entry (cookbook : Cookbook) (entry : Fields) : AdmissionResult × Cookbook :=
  let entryName := getField entry "name"
  if !entryName.truthy then (.nameNotFound, cookbook)
  else if !entryName.isStr then (.nameNotStr, cookbook)
  else if (cookbook.lookup entryName.asStr).isSome then (.duplicateName, cookbook)
  else
    let entryType := getField entry "type"
    if !entryType.truthy then (.typeNotFound, cookbook)
    else if !entryType.isStr then (.typeNotStr, cookbook)
    else if entryType.asStr == "recipe" then
      match isRecipeValid entry with
      | none => (.serverError, cookbook)
      | some false => (.invalidRecipe, cookbook)
      | some true => (.success, cookbook ++ [(entryName.asStr, entry)])
    else if entryType.asStr == "ingredient" then
      if !isIngredientValid entry then (.invalidIngredient, cookbook)
      else (.success, cookbook ++ [(entryName.asStr, entry)])
    else (.invalidType, cookbook)

/-- The cookbook after one admission attempt (its response discarded). -/
def admit1 (cookbook : Cookbook) (entry : Fields) : Cookbook :=
  (create_entry cookbook entry).2

/-- The cookbook after a sequence of admission attempts from the empty one. -/
def admitAll (es : List Fields) : Cookbook :=
  es.foldl admit1 []

/-- Exceptions `handleItemInfo` can raise: the two `ValueError`s of the
source, `typeError` for any other uncaught exception (missing key, non-dict
element, unpacking a `None` result, arithmetic on a non-integer), and
`fuelOut`, the fuel-model stand-in for Python's `RecursionError`. -/
inductive ResolveErr where
  | notFound
  | unknownType
  | typeError
  | fuelOut
deriving DecidableEq, Repr

/-- The flattened ingredient report: a Python dict from ingredient name to
aggregated quantity, modelled as an insertion-ordered association list. -/
abbrev Ingredients := List (String × Int)

/-- One merge step, `ingredients[n] = ingredients.get(n, 0) + q`. -/
def addIngredient (ings : Ingredients) (n : String) (q : Int) : Ingredients :=
  if ings.any (fun p => p.1 == n) then
    ings.map (fun p => if p.1 == n then (p.1, p.2 + q) else p)
  else ings ++ [(n, q)]

/-- The inner merge loop over one sub-result's `itemIngredients.items()`. -/
def mergeIngredients (acc : Ingredients) (sub : Ingredients) : Ingredients :=
  sub.foldl (fun a p => addIngredient a p.1 p.2) acc

/-- The resolver `handleItemInfo(name, quantity)`: resolve one required item against the
cookbook.  `Except.ok none` is the Python `None` a recipe with an empty
`requiredItems` list falls through to (the `return` sits inside the loop, so
an empty loop body never returns a pair).  That same in-loop `return` makes
the recipe branch process only the head of `requiredItems` and exit. -/
def handleItemInfo (cookbook : Cookbook) :
    Nat → String → Int → Except ResolveErr (Option (Int × Ingredients))
  | 0, _, _ => .error .fuelOut
  | fuel + 1, name, quantity =>
    match cookbook.lookup name with
    | none => .error .notFound
    | some entry =>
      match entry.lookup "type" with
      | none => .error .typeError
      | some ty =>
        if ty.isStrEq "ingredient" then
          match entry.lookup "cookTime" with
          | some (.jint ct) => .ok (some (ct * quantity, [(name, quantity)]))
          | _ => .error .typeError
        else if !ty.isStrEq "recipe" then .error .unknownType
        else
          match entry.lookup "requiredItems" with
          | some (.jlist []) | none => .ok none
          | some (.jlist (item :: _)) =>
            match item.getItem "name", item.getItem "quantity" with
            | some nameV, some (.jint iq) =>
              match nameV with
              | .jstr itemName =>
                match handleItemInfo cookbook fuel itemName (iq * quantity) with
                | .error e => .error e
                | .ok none => .error .typeError
                | .ok (some (itemCookTime, itemIngredients)) =>
                  .ok (some (0 + itemCookTime, mergeIngredients [] itemIngredients))
              | .jint _ | .jbool _ | .jnull => .error .notFound
              | _ => .error .typeError
            | _, _ => .error .typeError
          | some _ => .error .typeError

/-- The distinct outcomes of `GET /summary`.  `caught e` is the 400 response
produced when the `try` block catches an exception raised during resolution;
`crash` is an uncaught exception before the `try` (an entry with no `type`
key). -/
inductive SummaryResult where
  | ok (name : String) (cookTime : Int) (ingredients : Ingredients)
  | notFound
  | notARecipe
  | caught (e : ResolveErr)
  | crash
deriving DecidableEq, Repr

/-- The query endpoint `summary`, rooted at multiplier 1. -/
def summary (cookbook : Cookbook) (fuel : Nat) (name : String) : SummaryResult :=
  match cookbook.lookup name with
  | none => .notFound
  | some entry =>
    match entry.lookup "type" with
    | none => .crash
    | some ty =>
      if !ty.isStrEq "recipe" then .notARecipe
      else
        match handleItemInfo cookbook fuel name 1 with
        | .error e => .caught e
        | .ok none => .caught .typeError
        | .ok (some (totalCookTime, ingredients)) => .ok name totalCookTime ingredients

/-! ### Concrete records used by the end-to-end scenarios -/

/-- The record `{type: ingredient, name: "egg", cookTime: 5}`. -/
def eggEntry : Fields :=
  [("type", .jstr "ingredient"), ("name", .jstr "egg"), ("cookTime", .jint 5)]

/-- The record `{type: ingredient, name: "flour", cookTime: 2}`. -/
def flourEntry : Fields :=
  [("type", .jstr "ingredient"), ("name", .jstr "flour"), ("cookTime", .jint 2)]

/-- The record `{type: recipe, name: "cake", requiredItems: [{egg, 3}, {flour, 2}]}`. -/
def cakeEntry : Fields :=
  [("type", .jstr "recipe"), ("name", .jstr "cake"),
   ("requiredItems", .jlist [
     .jobj [("name", .jstr "egg"), ("quantity", .jint 3)],
     .jobj [("name", .jstr "flour"), ("quantity", .jint 2)]])]

/-- The record `{type: ingredient, name: "i", cookTime: 5}`. -/
def baseIngredient : Fields :=
  [("type", .jstr "ingredient"), ("name", .jstr "i"), ("cookTime", .jint 5)]

/-- The record `{type: recipe, name: "r2", requiredItems: [{i, 3}]}`. -/
def innerRecipe : Fields :=
  [("type", .jstr "recipe"), ("name", .jstr "r2"),
   ("requiredItems", .jlist [.jobj [("name", .jstr "i"), ("quantity", .jint 3)]])]

/-- The record `{type: recipe, name: "r1", requiredItems: [{r2, 2}]}`. -/
def outerRecipe : Fields :=
  [("type", .jstr "recipe"), ("name", .jstr "r1"),
   ("requiredItems", .jlist [.jobj [("name", .jstr "r2"), ("quantity", .jint 2)]])]

/-- The registry of the nested scenario: `i`, `r2`, `r1` admitted in order. -/
def nestedCookbook : Cookbook := admitAll [baseIngredient, innerRecipe, outerRecipe]

/-- The record `{type: ingredient, name: "a", cookTime: 5}`. -/
def aIngredient : Fields :=
  [("type", .jstr "ingredient"), ("name", .jstr "a"), ("cookTime", .jint 5)]

/-- The record `{type: recipe, name: "r", requiredItems: [{a, 1}, {b, 1}]}` — the second
required item references `b`, which is never admitted. -/
def danglingRecipe : Fields :=
  [("type", .jstr "recipe"), ("name", .jstr "r"),
   ("requiredItems", .jlist [.jobj [("name", .jstr "a"), ("quantity", .jint 1)],
                             .jobj [("name", .jstr "b"), ("quantity", .jint 1)]])]

/-- The record `{type: ingredient, name: "water", cookTime: 0}`. -/
def zeroWater : Fields :=
  [("type", .jstr "ingredient"), ("name", .jstr "water"), ("cookTime", .jint 0)]

/-! ### Predicates for the claim statements -/

/-- The item name the validator tracks in its `nameSet`: the `name` field of
a required-item row (empty string on a crash or a non-string value, positions
the validator rejects anyway). -/
def nameOf (it : JVal) : String :=
  match it.pyGet "name" with
  | some v => v.asStr
  | none => ""

/-- Spec 4.1's per-element condition on a `requiredItems` row: a non-empty
string `name` and a positive integer `quantity`. -/
def GoodItem (it : JVal) : Prop :=
  (∃ s, it.pyGet "name" = some (.jstr s) ∧ s ≠ "") ∧
  (∃ q : Int, it.pyGet "quantity" = some (.jint q) ∧ 0 < q)

/-- Spec 4.1's condition on a whole `requiredItems` sequence: every element
well-formed and element names pairwise distinct. -/
def GoodItems (items : List JVal) : Prop :=
  (∀ it ∈ items, GoodItem it) ∧ (items.map nameOf).Nodup

/-- A stored record typed `recipe` has pairwise-distinct required-item
names. -/
def RecipeRowsUnique (e : Fields) : Prop :=
  getField e "type" = .jstr "recipe" →
    ((getField e "requiredItems").asList.map nameOf).Nodup

/-- Spec 8's uniqueness invariant over a registry: entry names pairwise
distinct, and every stored recipe's rows pairwise distinct by name. -/
def RegistryUnique (cb : Cookbook) : Prop :=
  (cb.map Prod.fst).Nodup ∧ ∀ p ∈ cb, RecipeRowsUnique p.2

/-- A stored record typed `recipe` has a non-empty `requiredItems` list. -/
def RecipeNonempty (e : Fields) : Prop :=
  getField e "type" = .jstr "recipe" → (getField e "requiredItems").asList ≠ []

/-- Every stored recipe in the registry has at least one required item. -/
def RegistryRecipesNonempty (cb : Cookbook) : Prop :=
  ∀ p ∈ cb, RecipeNonempty p.2

/-- The names a stored entry's `requiredItems` rows reference (the edges of
the reference graph out of that entry). -/
def riNames (e : Fields) : List String :=
  match e.lookup "requiredItems" with
  | some (.jlist items) =>
    items.filterMap (fun it =>
      match it.getItem "name" with
      | some (.jstr s) => some s
      | _ => none)
  | _ => []

/-- Whether a stored entry is typed `recipe` (the only variant the resolver
recurses through). -/
def isRecipeTyped (e : Fields) : Bool :=
  match e.lookup "type" with
  | some (.jstr t) => t == "recipe"
  | _ => false

/-- Acyclicity of the reference graph, witnessed by a rank function that
strictly decreases along every edge out of a recipe: `rank` bounds the depth
of the reference graph below each name. -/
def acyclicUnder (cookbook : Cookbook) (rank : String → Nat) : Bool :=
  cookbook.all fun p =>
    !(isRecipeTyped p.2) || (riNames p.2).all fun s => decide (rank s < rank p.1)

/-- A rank function witnessing acyclicity of `nestedCookbook`. -/
def nestedRank (s : String) : Nat :=
  if s = "r1" then 2 else if s = "r2" then 1 else 0

/-! ### Claim theorems: concrete scenarios -/

/-- C1: the spec's end-to-end scenario (egg 5, flour 2, cake = 3 egg + 2
flour) does NOT yield cook time 19 and ingredients `{egg: 3, flour: 2}`: all
three admissions succeed, but the `return` inside the aggregation loop of
`handleItemInfo` exits after the first required item, so querying `cake`
yields cook time 15 and ingredients `{egg: 3}` only. -/
theorem c1_resolution_sums_only_first_item :
    (create_entry [] eggEntry).1 = .success ∧
    (create_entry (admitAll [eggEntry]) flourEntry).1 = .success ∧
    (create_entry (admitAll [eggEntry, flourEntry]) cakeEntry).1 = .success ∧
    summary (admitAll [eggEntry, flourEntry, cakeEntry]) 10 "cake"
      = .ok "cake" 15 [("egg", 3)] ∧
    summary (admitAll [eggEntry, flourEntry, cakeEntry]) 10 "cake"
      ≠ .ok "cake" 19 [("egg", 3), ("flour", 2)] :=
  ⟨rfl, rfl, rfl, rfl, by decide⟩

/-- C3: nested resolution multiplies along the reference path and flattens:
with ingredient `i` (cookTime 5), recipe `r2` = 3 × `i` and recipe `r1` =
2 × `r2` all admitted, querying `r1` yields total cook time 30 and the
single-ingredient report `{i: 6}`. -/
theorem c3_nested_resolution_flattens :
    (create_entry [] baseIngredient).1 = .success ∧
    (create_entry (admitAll [baseIngredient]) innerRecipe).1 = .success ∧
    (create_entry (admitAll [baseIngredient, innerRecipe]) outerRecipe).1 = .success ∧
    summary nestedCookbook 10 "r1" = .ok "r1" 30 [("i", 6)] :=
  ⟨rfl, rfl, rfl, rfl⟩

/-- C4: an absent name that occurs as a nested `requiredItems` reference is
NOT always reported as not-found: recipe `r` requires `a` (admitted, cook
time 5) and `b` (absent from the registry), yet querying `r` succeeds with
cook time 5 and `{a: 1}`, because the in-loop `return` never reaches the
second required item.  Root-level behaviour is as claimed: an absent root is
reported not-found, and an ingredient root is reported not-a-recipe. -/
theorem c4_absent_nested_reference_unreported :
    (create_entry (admitAll [aIngredient]) danglingRecipe).1 = .success ∧
    (admitAll [aIngredient, danglingRecipe]).lookup "b" = none ∧
    summary (admitAll [aIngredient, danglingRecipe]) 10 "r" = .ok "r" 5 [("a", 1)] ∧
    summary (admitAll [aIngredient, danglingRecipe]) 10 "zzz" = .notFound ∧
    summary (admitAll [aIngredient, danglingRecipe]) 10 "a" = .notARecipe :=
  ⟨rfl, rfl, rfl, rfl, rfl⟩

/-- C2 (counterexample): an ingredient whose `cookTime` is the integer 0 is
NOT accepted — `if not cookTime` treats 0 as falsy, so admission of
`{type: ingredient, name: "water", cookTime: 0}` into the empty cookbook
fails with the invalid-ingredient rejection and stores nothing. -/
theorem c2_zero_cooktime_rejected :
    create_entry [] zeroWater = (.invalidIngredient, []) ∧
    (create_entry [] zeroWater).1 ≠ .success :=
  ⟨rfl, by decide⟩

/-! ### General lemmas about the embedded operations -/

/-- A truthy value of string type is a non-empty string. -/
theorem JVal.truthy_isStr {v : JVal} (h1 : v.truthy = true) (h2 : v.isStr = true) :
    ∃ s, v = .jstr s ∧ s ≠ "" := by
  cases v <;> simp_all [JVal.truthy, JVal.isStr]

/-- An integer-typed value whose payload is not `≤ 0` is a positive
integer. -/
theorem JVal.isInt_pos {v : JVal} (h1 : v.isInt = true) (h2 : ¬ v.asInt ≤ 0) :
    ∃ n : Int, v = .jint n ∧ 0 < n := by
  cases v <;> simp_all [JVal.isInt, JVal.asInt]

/-- Python `.get` never crashes on a dict. -/
theorem JVal.pyGet_of_isObj {v : JVal} (h : v.isObj = true) (k : String) :
    ∃ w, v.pyGet k = some w := by
  cases v <;> simp_all [JVal.isObj, JVal.pyGet]

/-- A successful `lookup` finds an actual member. -/
theorem mem_of_lookup_eq_some {β : Type} (l : List (String × β)) (k : String) (v : β)
    (h : l.lookup k = some v) : (k, v) ∈ l := by
  induction l with
  | nil => simp [List.lookup] at h
  | cons p rest ih =>
    obtain ⟨a, b⟩ := p
    cases hka : k == a with
    | true =>
      simp only [List.lookup, hka, Option.some.injEq] at h
      subst h
      have : k = a := by simpa using hka
      subst this
      exact List.mem_cons_self _ _
    | false =>
      simp only [List.lookup, hka] at h
      exact List.mem_cons_of_mem _ (ih h)

/-- A failed `lookup` means the key is not among the stored keys. -/
theorem lookup_none_not_mem {β : Type} (l : List (String × β)) (k : String)
    (h : l.lookup k = none) : k ∉ l.map Prod.fst := by
  induction l with
  | nil => simp
  | cons p rest ih =>
    obtain ⟨a, b⟩ := p
    cases hka : k == a with
    | true => simp [List.lookup, hka] at h
    | false =>
      simp only [List.lookup, hka] at h
      have hrest := ih h
      simp only [List.map_cons, List.mem_cons] at hrest ⊢
      rintro (rfl | hk)
      · simp at hka
      · exact hrest hk

/-- A negated boolean-not equation gives the positive boolean fact. -/
theorem not_bnot_true {b : Bool} (h : ¬ (!b) = true) : b = true := by
  cases b <;> simp_all

/-- A non-`isSome` option is `none`. -/
theorem not_isSome_none {β : Type} {o : Option β} (h : ¬ o.isSome = true) : o = none := by
  cases o <;> simp_all

/-- Case analysis of one admission: either the cookbook is untouched, or the
call succeeded, appended exactly one fresh binding, and the stored record
passed the validator of its declared type. -/
theorem create_entry_characterize (cb : Cookbook) (entry : Fields) :
    (create_entry cb entry).2 = cb ∨
    ((create_entry cb entry).1 = .success ∧
     ∃ nm, getField entry "name" = .jstr nm ∧ cb.lookup nm = none ∧
       (create_entry cb entry).2 = cb ++ [(nm, entry)] ∧
       ((getField entry "type" = .jstr "recipe" ∧ isRecipeValid entry = some true) ∨
        (getField entry "type" = .jstr "ingredient" ∧ isIngredientValid entry = true))) := by
  simp only [create_entry]
  split
  · exact Or.inl rfl
  next hT =>
    split
    · exact Or.inl rfl
    next hS =>
      split
      · exact Or.inl rfl
      next hDup =>
        split
        · exact Or.inl rfl
        next hT2 =>
          split
          · exact Or.inl rfl
          next hS2 =>
            have hTn := not_bnot_true hT
            have hSn := not_bnot_true hS
            have hT2n := not_bnot_true hT2
            have hS2n := not_bnot_true hS2
            obtain ⟨nm, hnm, -⟩ := JVal.truthy_isStr hTn hSn
            obtain ⟨t, htv, -⟩ := JVal.truthy_isStr hT2n hS2n
            split
            next hR =>
              have ht : t = "recipe" := by
                rw [htv] at hR; simpa [JVal.asStr] using hR
              split
              next => exact Or.inl rfl
              next => exact Or.inl rfl
              next heq =>
                refine Or.inr ⟨rfl, nm, hnm, ?_, ?_, Or.inl ⟨by rw [htv, ht], heq⟩⟩
                · rw [hnm] at hDup
                  simp only [JVal.asStr] at hDup
                  exact not_isSome_none hDup
                · rw [hnm]; simp [JVal.asStr]
            next hR =>
              split
              next hI =>
                have ht : t = "ingredient" := by
                  rw [htv] at hI; simpa [JVal.asStr] using hI
                split
                · exact Or.inl rfl
                next hval =>
                  refine Or.inr ⟨rfl, nm, hnm, ?_, ?_,
                    Or.inr ⟨by rw [htv, ht], not_bnot_true hval⟩⟩
                  · rw [hnm] at hDup
                    simp only [JVal.asStr] at hDup
                    exact not_isSome_none hDup
                  · rw [hnm]; simp [JVal.asStr]
              next hI => exact Or.inl rfl

/-- The ingredient validator accepts exactly the strictly positive integer
cook times: the `if not cookTime` falsy check also rejects the integer 0. -/
theorem isIngredientValid_iff (entry : Fields) :
    isIngredientValid entry = true ↔
      ∃ c : Int, getField entry "cookTime" = .jint c ∧ 0 < c := by
  unfold isIngredientValid
  cases h : getField entry "cookTime" <;>
    simp [h, JVal.truthy, JVal.isInt, JVal.asInt]
  omega

/-- C7: admission is all-or-nothing — whenever `create_entry` reports
anything other than success, the cookbook after the call is exactly the
cookbook before it; an entry is stored only on the success path. -/
theorem c7_admission_all_or_nothing (cb : Cookbook) (entry : Fields)
    (h : (create_entry cb entry).1 ≠ .success) :
    (create_entry cb entry).2 = cb := by
  rcases create_entry_characterize cb entry with h2 | ⟨hs, -⟩
  · exact h2
  · exact absurd hs h

/-- C7 witness: admitting a record with no `name` field into the empty
cookbook fails and leaves the cookbook empty. -/
theorem c7_admission_all_or_nothing_witness :
    (create_entry [] ([] : Fields)).1 ≠ AdmissionResult.success ∧
    (create_entry [] ([] : Fields)).2 = ([] : Cookbook) :=
  ⟨by decide, c7_admission_all_or_nothing [] [] (by decide)⟩

/-- C2 (amended): for a candidate with a valid fresh name and type
`ingredient`, admission succeeds exactly when `cookTime` is a strictly
positive integer, and fails with the invalid-ingredient rejection exactly
otherwise — in particular a `cookTime` of 0 is rejected, because
`if not cookTime` treats the integer 0 as missing. -/
theorem c2_ingredient_admission_iff (cb : Cookbook) (entry : Fields) (nm : String)
    (hn : getField entry "name" = .jstr nm) (hnm : nm ≠ "")
    (hfresh : cb.lookup nm = none)
    (ht : getField entry "type" = .jstr "ingredient") :
    ((create_entry cb entry).1 = .success ↔
       ∃ c : Int, getField entry "cookTime" = .jint c ∧ 0 < c) ∧
    ((create_entry cb entry).1 = .invalidIngredient ↔
       ¬ ∃ c : Int, getField entry "cookTime" = .jint c ∧ 0 < c) := by
  have hval := isIngredientValid_iff entry
  simp only [create_entry, hn, ht, JVal.truthy, JVal.isStr, JVal.asStr, hfresh]
  cases hv : isIngredientValid entry with
  | true =>
    rw [hv] at hval
    simp [hnm, hval.mp rfl]
  | false =>
    rw [hv] at hval
    have : ¬ ∃ c : Int, getField entry "cookTime" = .jint c ∧ 0 < c := by
      intro hc
      exact absurd (hval.mpr hc) (by simp)
    simp [hnm, this]

/-- A negated boolean disjunction of negations gives both positive facts. -/
theorem not_or_bnot {a b : Bool} (h : ¬ (!a || !b) = true) : a = true ∧ b = true := by
  cases a <;> cases b <;> simp_all

/-- A failed `contains` check means non-membership. -/
theorem not_contains_not_mem {l : List String} {s : String}
    (h : ¬ l.contains s = true) : s ∉ l := by
  intro hm
  exact h (by simpa using hm)

/-- Soundness of the validator's item loop: acceptance forces every row to
carry a non-empty string name and a positive integer quantity, with names
pairwise distinct and disjoint from the already-seen set. -/
theorem checkItems_sound (items : List JVal) :
    ∀ seen, checkItems items seen = some true →
      (∀ it ∈ items, GoodItem it) ∧ (items.map nameOf).Nodup ∧
      ∀ it ∈ items, nameOf it ∉ seen := by
  induction items with
  | nil => intro seen _; simp
  | cons item rest ih =>
    intro seen h
    unfold checkItems at h
    cases hn : item.pyGet "name" with
    | none => rw [hn] at h; exact absurd h (by simp)
    | some nameV =>
      simp only [hn] at h
      split at h
      · exact absurd h (by simp)
      next hgood =>
        obtain ⟨htr, hst⟩ := not_or_bnot hgood
        obtain ⟨s, hsv, hsne⟩ := JVal.truthy_isStr htr hst
        subst hsv
        simp only [JVal.asStr] at h
        split at h
        · exact absurd h (by simp)
        next hseen =>
          cases hq : item.pyGet "quantity" with
          | none => rw [hq] at h; exact absurd h (by simp)
          | some qV =>
            simp only [hq] at h
            split at h
            · exact absurd h (by simp)
            next hqgood =>
              split at h
              · exact absurd h (by simp)
              next hqpos =>
                obtain ⟨-, hqint⟩ := not_or_bnot hqgood
                obtain ⟨q, hqv, hq0⟩ := JVal.isInt_pos hqint hqpos
                subst hqv
                obtain ⟨ihgood, ihnodup, ihseen⟩ := ih (s :: seen) h
                have hname : nameOf item = s := by simp [nameOf, hn, JVal.asStr]
                have hsnot : s ∉ seen := by
                  have := not_contains_not_mem hseen
                  exact this
                refine ⟨?_, ?_, ?_⟩
                · intro it hit
                  rcases List.mem_cons.mp hit with rfl | hit
                  · exact ⟨⟨s, hn, hsne⟩, ⟨q, hq, hq0⟩⟩
                  · exact ihgood it hit
                · simp only [List.map_cons, List.nodup_cons, hname]
                  refine ⟨?_, ihnodup⟩
                  intro hmem
                  obtain ⟨it, hit, hits⟩ := List.mem_map.mp hmem
                  have := ihseen it hit
                  rw [hits] at this
                  exact this (List.mem_cons_self _ _)
                · intro it hit
                  rcases List.mem_cons.mp hit with rfl | hit
                  · rw [hname]; exact hsnot
                  · intro hmem
                    exact ihseen it hit (List.mem_cons_of_mem _ hmem)

/-- Completeness of the validator's item loop: well-formed rows with
pairwise-distinct names disjoint from the seen set are accepted. -/
theorem checkItems_complete (items : List JVal) :
    ∀ seen, (∀ it ∈ items, GoodItem it) → (items.map nameOf).Nodup →
      (∀ it ∈ items, nameOf it ∉ seen) →
      checkItems items seen = some true := by
  induction items with
  | nil => intro seen _ _ _; rfl
  | cons item rest ih =>
    intro seen hgood hnodup hdisj
    obtain ⟨⟨s, hsv, hsne⟩, ⟨q, hqv, hq0⟩⟩ := hgood item (List.mem_cons_self _ _)
    have hname : nameOf item = s := by simp [nameOf, hsv, JVal.asStr]
    have hsnotseen : s ∉ seen := by
      have := hdisj item (List.mem_cons_self _ _)
      rwa [hname] at this
    have hnd : (nameOf item :: rest.map nameOf).Nodup := by simpa using hnodup
    obtain ⟨hhead, htail⟩ := List.nodup_cons.mp hnd
    unfold checkItems
    simp only [hsv, hqv, JVal.truthy, JVal.isStr, JVal.isInt, JVal.asStr, JVal.asInt]
    rw [if_neg (by simp [hsne]), if_neg (by simpa using hsnotseen),
        if_neg (by simp; omega), if_neg (by omega)]
    apply ih (s :: seen)
    · intro it hit; exact hgood it (List.mem_cons_of_mem _ hit)
    · exact htail
    · intro it hit
      simp only [List.mem_cons, not_or]
      refine ⟨?_, hdisj it (List.mem_cons_of_mem _ hit)⟩
      intro heq
      have hs : s ∉ rest.map nameOf := hname ▸ hhead
      exact hs (heq ▸ List.mem_map_of_mem nameOf hit)

/-- The validator's item loop never crashes when every row is a dict. -/
theorem checkItems_no_crash (items : List JVal) :
    ∀ seen, (∀ it ∈ items, it.isObj = true) → checkItems items seen ≠ none := by
  induction items with
  | nil => intro seen _; simp [checkItems]
  | cons item rest ih =>
    intro seen hobj
    obtain ⟨nv, hnv⟩ := JVal.pyGet_of_isObj (hobj item (List.mem_cons_self _ _)) "name"
    obtain ⟨qv, hqv⟩ := JVal.pyGet_of_isObj (hobj item (List.mem_cons_self _ _)) "quantity"
    unfold checkItems
    simp only [hnv, hqv]
    split
    · simp
    split
    · simp
    split
    · simp
    split
    · simp
    exact ih _ (fun it hit => hobj it (List.mem_cons_of_mem _ hit))

/-- Under a non-empty list-valued `requiredItems` field, the recipe
validator is exactly the item loop started with an empty seen set. -/
theorem isRecipeValid_eq (entry : Fields) (items : List JVal)
    (hri : getField entry "requiredItems" = .jlist items) (hne : items ≠ []) :
    isRecipeValid entry = checkItems items [] := by
  simp only [isRecipeValid, hri, JVal.truthy, JVal.isList, JVal.asList]
  rw [if_neg (by simp [hne])]

/-- An empty `requiredItems` list is rejected by the falsy check. -/
theorem isRecipeValid_empty (entry : Fields)
    (hri : getField entry "requiredItems" = .jlist []) :
    isRecipeValid entry = some false := by
  simp [isRecipeValid, hri, JVal.truthy]

/-- An accepted recipe has a non-empty list-valued `requiredItems` field
whose rows pass the item loop. -/
theorem isRecipeValid_true_shape (entry : Fields)
    (h : isRecipeValid entry = some true) :
    ∃ items, getField entry "requiredItems" = .jlist items ∧ items ≠ [] ∧
      checkItems items [] = some true := by
  simp only [isRecipeValid] at h
  cases hri : getField entry "requiredItems" <;> rw [hri] at h <;>
    simp [JVal.truthy, JVal.isList, JVal.asList] at h
  case jlist xs =>
    cases xs with
    | nil => simp at h
    | cons x rest =>
      refine ⟨x :: rest, rfl, by simp, ?_⟩
      simpa using h

/-- C6 (amended): for a candidate with a valid fresh name, type `recipe`,
and a non-empty sequence of *record* rows under `requiredItems`, admission
succeeds exactly when every row has a non-empty string `name` and a positive
integer `quantity` and the row names are pairwise distinct, and fails with
the invalid-recipe rejection exactly otherwise.  (A non-record row instead
crashes the request — see the counterexample theorem below.) -/
theorem c6_recipe_admission_iff (cb : Cookbook) (entry : Fields) (nm : String)
    (items : List JVal)
    (hn : getField entry "name" = .jstr nm) (hnm : nm ≠ "")
    (hfresh : cb.lookup nm = none)
    (ht : getField entry "type" = .jstr "recipe")
    (hri : getField entry "requiredItems" = .jlist items)
    (hne : items ≠ [])
    (hobj : items.all JVal.isObj = true) :
    ((create_entry cb entry).1 = .success ↔ GoodItems items) ∧
    ((create_entry cb entry).1 = .invalidRecipe ↔ ¬ GoodItems items) := by
  have heq := isRecipeValid_eq entry items hri hne
  have hobj' : ∀ it ∈ items, it.isObj = true := by
    intro it hit
    exact List.all_eq_true.mp hobj it hit
  simp only [create_entry, hn, ht, JVal.truthy, JVal.isStr, JVal.asStr, hfresh]
  rw [heq]
  cases hch : checkItems items [] with
  | none => exact absurd hch (checkItems_no_crash items [] hobj')
  | some b =>
    cases b with
    | true =>
      have hg : GoodItems items := by
        obtain ⟨h1, h2, -⟩ := checkItems_sound items [] hch
        exact ⟨h1, h2⟩
      simp [hnm, hg]
    | false =>
      have hng : ¬ GoodItems items := by
        intro hg
        rw [checkItems_complete items [] hg.1 hg.2 (by simp)] at hch
        simp at hch
      simp [hnm, hng]

/-- C6 witness: the characterization applied to the cake recipe (rows
`{egg, 3}` and `{flour, 2}`) over the empty cookbook. -/
theorem c6_recipe_admission_iff_witness :
    ((create_entry [] cakeEntry).1 = .success ↔
       GoodItems [.jobj [("name", .jstr "egg"), ("quantity", .jint 3)],
                  .jobj [("name", .jstr "flour"), ("quantity", .jint 2)]]) ∧
    ((create_entry [] cakeEntry).1 = .invalidRecipe ↔
       ¬ GoodItems [.jobj [("name", .jstr "egg"), ("quantity", .jint 3)],
                    .jobj [("name", .jstr "flour"), ("quantity", .jint 2)]]) :=
  c6_recipe_admission_iff [] cakeEntry "cake"
    [.jobj [("name", .jstr "egg"), ("quantity", .jint 3)],
     .jobj [("name", .jstr "flour"), ("quantity", .jint 2)]]
    rfl (by decide) rfl rfl rfl (by simp) (by decide)

/-- C6 (counterexample): a recipe whose non-empty `requiredItems` contains a
non-record element is NOT rejected with the invalid-recipe response, as the
claim states (the element "lacks a non-empty string name"): `item.get('name')`
raises AttributeError on the string element, so admission of
`{name: "d", type: "recipe", requiredItems: ["x"]}` crashes the request
(HTTP 500, modelled `serverError`) without storing anything. -/
theorem c6_nonrecord_row_crashes_not_invalid :
    create_entry []
      [("name", .jstr "d"), ("type", .jstr "recipe"),
       ("requiredItems", .jlist [.jstr "x"])]
      = (.serverError, []) ∧
    (create_entry []
      [("name", .jstr "d"), ("type", .jstr "recipe"),
       ("requiredItems", .jlist [.jstr "x"])]).1 ≠ .invalidRecipe :=
  ⟨rfl, by decide⟩

/-- One admission attempt preserves the registry uniqueness invariant. -/
theorem registryUnique_step (cb : Cookbook) (e : Fields) (h : RegistryUnique cb) :
    RegistryUnique (admit1 cb e) := by
  unfold admit1
  rcases create_entry_characterize cb e with h2 | ⟨-, nm, hnm, hfresh, happ, hval⟩
  · rw [h2]; exact h
  · rw [happ]
    constructor
    · simp only [List.map_append, List.map_cons, List.map_nil]
      rw [List.nodup_append]
      refine ⟨h.1, List.nodup_singleton _, ?_⟩
      intro a ha hb
      simp only [List.mem_singleton] at hb
      subst hb
      exact lookup_none_not_mem cb a hfresh ha
    · intro p hp
      rcases List.mem_append.mp hp with hp | hp
      · exact h.2 p hp
      · simp only [List.mem_singleton] at hp
        subst hp
        intro htype
        rcases hval with ⟨-, hvalid⟩ | ⟨hting, -⟩
        · obtain ⟨items, hri, -, hch⟩ := isRecipeValid_true_shape e hvalid
          rw [hri]
          simp only [JVal.asList]
          exact (checkItems_sound items [] hch).2.1
        · rw [hting] at htype
          exact absurd htype (by simp)

/-- C5: after every sequence of admission attempts (successful or not)
starting from the empty cookbook, no two stored entries share a name and
every stored recipe's `requiredItems` rows have pairwise-distinct names. -/
theorem c5_registry_uniqueness (es : List Fields) : RegistryUnique (admitAll es) := by
  have main : ∀ (l : List Fields) (cb : Cookbook),
      RegistryUnique cb → RegistryUnique (l.foldl admit1 cb) := by
    intro l
    induction l with
    | nil => intro cb hcb; exact hcb
    | cons e rest ih => intro cb hcb; exact ih _ (registryUnique_step cb e hcb)
  exact main es [] ⟨List.nodup_nil, by simp⟩

/-- C5 witness: the uniqueness invariant instantiated at the end-to-end
scenario's admission sequence. -/
theorem c5_registry_uniqueness_witness :
    RegistryUnique (admitAll [eggEntry, flourEntry, cakeEntry]) :=
  c5_registry_uniqueness [eggEntry, flourEntry, cakeEntry]

/-- One admission attempt preserves non-emptiness of stored recipes'
`requiredItems`. -/
theorem registryNonempty_step (cb : Cookbook) (e : Fields)
    (h : RegistryRecipesNonempty cb) : RegistryRecipesNonempty (admit1 cb e) := by
  unfold admit1
  rcases create_entry_characterize cb e with h2 | ⟨-, nm, -, -, happ, hval⟩
  · rw [h2]; exact h
  · rw [happ]
    intro p hp
    rcases List.mem_append.mp hp with hp | hp
    · exact h p hp
    · simp only [List.mem_singleton] at hp
      subst hp
      intro htype
      rcases hval with ⟨-, hvalid⟩ | ⟨hting, -⟩
      · obtain ⟨items, hri, hne, -⟩ := isRecipeValid_true_shape e hvalid
        rw [hri]
        simpa [JVal.asList] using hne
      · rw [hting] at htype
        exact absurd htype (by simp)

/-- C10: a candidate typed `recipe` whose `requiredItems` is present and
equal to the empty list is rejected with the invalid-recipe rejection (the
falsy check treats an empty list like a missing field) and stores nothing;
consequently every recipe stored by any admission sequence has at least one
required item. -/
theorem c10_empty_requiredItems_rejected (cb : Cookbook) (entry : Fields)
    (nm : String)
    (hn : getField entry "name" = .jstr nm) (hnm : nm ≠ "")
    (hfresh : cb.lookup nm = none)
    (ht : getField entry "type" = .jstr "recipe")
    (hri : getField entry "requiredItems" = .jlist []) :
    create_entry cb entry = (.invalidRecipe, cb) ∧
    ∀ es, RegistryRecipesNonempty (admitAll es) := by
  constructor
  · have hval := isRecipeValid_empty entry hri
    simp only [create_entry, hn, ht, JVal.truthy, JVal.isStr, JVal.asStr, hfresh, hval]
    simp [hnm]
  · intro es
    have main : ∀ (l : List Fields) (cb' : Cookbook),
        RegistryRecipesNonempty cb' → RegistryRecipesNonempty (l.foldl admit1 cb') := by
      intro l
      induction l with
      | nil => intro cb' hcb; exact hcb
      | cons e rest ih => intro cb' hcb; exact ih _ (registryNonempty_step cb' e hcb)
    exact main es [] (by intro p hp; simp at hp)

/-- C10 witness: the empty-`requiredItems` recipe `{name: "e0", type:
recipe, requiredItems: []}` is rejected over the empty cookbook. -/
theorem c10_empty_requiredItems_rejected_witness :
    create_entry []
      [("name", .jstr "e0"), ("type", .jstr "recipe"), ("requiredItems", .jlist [])]
      = (.invalidRecipe, []) ∧
    ∀ es, RegistryRecipesNonempty (admitAll es) :=
  c10_empty_requiredItems_rejected []
    [("name", .jstr "e0"), ("type", .jstr "recipe"), ("requiredItems", .jlist [])]
    "e0" rfl (by decide) rfl rfl rfl

/-- A string-equality test that passes identifies the value. -/
theorem JVal.isStrEq_eq {v : JVal} {s : String} (h : v.isStrEq s = true) :
    v = .jstr s := by
  cases v <;> simp_all [JVal.isStrEq]

/-- Keys of `addIngredient` are the added name or keys of the
accumulator. -/
theorem mem_addIngredient {acc : Ingredients} {n : String} {q : Int}
    {p : String × Int} (h : p ∈ addIngredient acc n q) :
    p.1 = n ∨ ∃ q0, (p.1, q0) ∈ acc := by
  unfold addIngredient at h
  split at h
  · obtain ⟨p0, hp0, hmap⟩ := List.mem_map.mp h
    by_cases hn : (p0.1 == n) = true
    · rw [if_pos hn] at hmap
      rw [← hmap]
      exact Or.inl (by simpa using hn)
    · rw [if_neg hn] at hmap
      rw [← hmap]
      exact Or.inr ⟨p0.2, by simpa using hp0⟩
  · rcases List.mem_append.mp h with hp | hp
    · exact Or.inr ⟨p.2, by simpa using hp⟩
    · simp only [List.mem_singleton] at hp
      rw [hp]
      exact Or.inl rfl

/-- Keys of `mergeIngredients` come from the accumulator or the merged
sub-report. -/
theorem mem_mergeIngredients {sub : Ingredients} :
    ∀ {acc : Ingredients} {p : String × Int}, p ∈ mergeIngredients acc sub →
      (∃ q0, (p.1, q0) ∈ acc) ∨ ∃ q0, (p.1, q0) ∈ sub := by
  induction sub with
  | nil =>
    intro acc p h
    exact Or.inl ⟨p.2, by simpa [mergeIngredients] using h⟩
  | cons x rest ih =>
    intro acc p h
    rw [show mergeIngredients acc (x :: rest) =
        mergeIngredients (addIngredient acc x.1 x.2) rest from rfl] at h
    rcases ih h with ⟨q0, hq0⟩ | ⟨q0, hq0⟩
    · rcases mem_addIngredient hq0 with h1 | ⟨q1, hq1⟩
      · refine Or.inr ⟨x.2, ?_⟩
        rw [h1]
        simp
      · exact Or.inl ⟨q1, hq1⟩
    · exact Or.inr ⟨q0, List.mem_cons_of_mem _ hq0⟩

/-- C8: every name in a successful resolution's ingredient report maps to a
stored entry typed `ingredient` in the cookbook — recipe names never appear,
because names enter the report only at the ingredient base case. -/
theorem c8_report_names_are_ingredients (cookbook : Cookbook) :
    ∀ (fuel : Nat) (name : String) (q ct : Int) (ings : Ingredients),
      handleItemInfo cookbook fuel name q = .ok (some (ct, ings)) →
      ∀ p ∈ ings, ∃ e, cookbook.lookup p.1 = some e ∧
        e.lookup "type" = some (.jstr "ingredient") := by
  intro fuel
  induction fuel with
  | zero => intro name q ct ings h; simp [handleItemInfo] at h
  | succ fuel ih =>
    intro name q ct ings h p hp
    unfold handleItemInfo at h
    repeat' split at h
    all_goals try exact Except.noConfusion h
    all_goals try exact Option.noConfusion (Except.ok.inj h)
    · rename_i o1 entry hl o2 ty hty hing o3 ct0 hct
      simp only [Except.ok.injEq, Option.some.injEq, Prod.mk.injEq] at h
      obtain ⟨-, hings⟩ := h
      rw [← hings] at hp
      simp only [List.mem_singleton] at hp
      rw [hp]
      refine ⟨entry, hl, ?_⟩
      rw [JVal.isStrEq_eq hing] at hty
      exact hty
    · rename_i o1 entry hl o2 ty hty hingN hrecN o3 item tail hri o4 o5 iq hiq
        nameV itemName hnv o6 ict iings heq
      simp only [Except.ok.injEq, Option.some.injEq, Prod.mk.injEq] at h
      obtain ⟨-, hings⟩ := h
      rw [← hings] at hp
      rcases mem_mergeIngredients hp with ⟨q0, hq0⟩ | ⟨q0, hq0⟩
      · simp at hq0
      · exact ih itemName (iq * q) ict iings heq (p.1, q0) hq0

/-- C8 witness: in the nested scenario the resolution of `r1` succeeds with
report `{i: 6}`, and `i` is indeed stored as an ingredient. -/
theorem c8_report_names_are_ingredients_witness :
    ∃ e, nestedCookbook.lookup "i" = some e ∧
      e.lookup "type" = some (JVal.jstr "ingredient") :=
  c8_report_names_are_ingredients nestedCookbook 10 "r1" 1 30 [("i", 6)] rfl
    ("i", 6) (by simp)

/-- C9: under an acyclic reference graph — witnessed by a rank function that
strictly decreases across every edge out of a stored recipe — resolution
terminates for every starting name and multiplier: any fuel exceeding the
start name's rank (a bound on the reference-graph depth below it) is never
exhausted. -/
theorem c9_acyclic_resolution_terminates (cookbook : Cookbook)
    (rank : String → Nat) (hacyc : acyclicUnder cookbook rank = true) :
    ∀ (fuel : Nat) (name : String) (q : Int), rank name < fuel →
      handleItemInfo cookbook fuel name q ≠ .error .fuelOut := by
  intro fuel
  induction fuel with
  | zero => intro name q hf; exact absurd hf (Nat.not_lt_zero _)
  | succ fuel ih =>
    intro name q hf
    unfold handleItemInfo
    repeat' split
    all_goals try exact fun hx => ResolveErr.noConfusion (Except.error.inj hx)
    all_goals try exact fun hx => Except.noConfusion hx
    rename_i o1 entry hl o2 ty hty hingN hrecN o3 item tail hri o4 o5 iq hiq
      nameV itemName hnv o6 e heq
    have hrec : ty.isStrEq "recipe" = true := not_bnot_true hrecN
    have hmem : (name, entry) ∈ cookbook := mem_of_lookup_eq_some _ _ _ hl
    have hall : (!isRecipeTyped entry ||
        (riNames entry).all fun s => decide (rank s < rank name)) = true :=
      List.all_eq_true.mp hacyc (name, entry) hmem
    have htyped : isRecipeTyped entry = true := by
      unfold isRecipeTyped
      rw [hty, JVal.isStrEq_eq hrec]
      rfl
    rw [htyped] at hall
    simp only [Bool.not_true, Bool.false_or] at hall
    have hnmem : itemName ∈ riNames entry := by
      unfold riNames
      rw [hri]
      exact List.mem_filterMap.mpr ⟨item, List.mem_cons_self _ _, by rw [hnv]⟩
    have hrk : rank itemName < rank name := by
      have := List.all_eq_true.mp hall itemName hnmem
      simpa using this
    have hlt : rank itemName < fuel := lt_of_lt_of_le hrk (Nat.lt_succ_iff.mp hf)
    intro hx
    rw [Except.error.inj hx] at heq
    exact ih itemName (iq * q) hlt heq

/-- C9 witness: `nestedRank` witnesses acyclicity of `nestedCookbook`, so
resolving `r1` with fuel 10 does not exhaust the fuel. -/
theorem c9_acyclic_resolution_terminates_witness :
    handleItemInfo nestedCookbook 10 "r1" 1 ≠ Except.error ResolveErr.fuelOut :=
  c9_acyclic_resolution_terminates nestedCookbook nestedRank (by decide) 10 "r1" 1
    (by decide)

/-- C2 witness: the amended characterization applied to the egg ingredient
(`cookTime` 5) over the empty cookbook. -/
theorem c2_ingredient_admission_iff_witness :
    ((create_entry [] eggEntry).1 = .success ↔
       ∃ c : Int, getField eggEntry "cookTime" = .jint c ∧ 0 < c) ∧
    ((create_entry [] eggEntry).1 = .invalidIngredient ↔
       ¬ ∃ c : Int, getField eggEntry "cookTime" = .jint c ∧ 0 < c) :=
  c2_ingredient_admission_iff [] eggEntry "egg" rfl (by decide) rfl rfl
